import Mathlib

/-
Shallow embedding of the Shopify webhook order-ingestion and wallet-fulfillment
sources (api/webhooks/shopify.js and src/lib/walletMapping.js, the latter
bundling the realtime claim/complete handlers), together with proofs about the
embedded definitions.

Conventions used throughout:
- JS strings are Lean String values; nullable/undefined JS values are Option.
- Supabase/PostgREST calls are modelled as pure transformations of an explicit
  database state.  update(...).eq(...).single() applies the update to every
  row matching the filters and returns the affected row when exactly one row
  matched, and the PGRST116 error (zero or several rows) otherwise.
- JS Array.prototype.sort is a stable sort (ES2019); it is modelled with the
  stable List.insertionSort.
- toLowerCase is modelled on ASCII, which covers every keyword and product
  name appearing in the catalog table.
- Machine-generated row ids are modelled as Nat counters in the database state.
-/

/-- ASCII lowercasing of one character, the restriction of JS toLowerCase
to the character range the catalog uses. -/
def lowerChar (c : Char) : Char :=
  if 65 ≤ c.toNat ∧ c.toNat ≤ 90 then Char.ofNat (c.toNat + 32) else c

/-- ASCII lowercasing of a string (JS String.prototype.toLowerCase). -/
def lowerStr (s : String) : String := String.mk (s.data.map lowerChar)

/-- Character-list test used to model JS String.prototype.includes: does the
needle occur at the very start of the haystack. -/
def prefOf : List Char → List Char → Bool
  | [], _ => true
  | _ :: _, [] => false
  | n :: ns, h :: hs => decide (n = h) && prefOf ns hs

/-- Character-list substring occurrence test. -/
def subOf (needle : List Char) : List Char → Bool
  | [] => needle.isEmpty
  | h :: hs => prefOf needle (h :: hs) || subOf needle hs

/-- JS hay.includes(needle). -/
def jsIncludes (hay needle : String) : Bool := subOf needle.data hay.data

/-- One entry of the WALLET_MAPPINGS object of src/lib/walletMapping.js:
a canonical wallet-type identifier, its keyword phrases, and a point value. -/
structure WalletMapping where
  walletType : String
  keywords : List String
  points : Nat
deriving DecidableEq, Repr

/-- WALLET_MAPPINGS from src/lib/walletMapping.js, in object-literal insertion
order (Object.entries preserves it for string keys). -/
def WALLET_MAPPINGS : List WalletMapping := [
  ⟨"peyton", ["peyton"], 2⟩,
  ⟨"richmond", ["richmond"], 2⟩,
  ⟨"keller-money-clip", ["keller money clip", "keller"], 2⟩,
  ⟨"georgetown", ["georgetown"], 2⟩,
  ⟨"pflugerville", ["pflugerville"], 2⟩,
  ⟨"minimalist-badge", ["minimalist badge wallet", "minimalist badge"], 2⟩,
  ⟨"knife-sheath", ["knife sheath"], 2⟩,
  ⟨"keychain", ["keychain"], 2⟩,
  ⟨"passport-holder", ["passport holder", "passport"], 3⟩,
  ⟨"victory", ["victory"], 3⟩,
  ⟨"western-vertical", ["western vertical wallet", "western vertical"], 3⟩,
  ⟨"valet-tray", ["valet tray"], 3⟩,
  ⟨"tyler-vertical", ["tyler vertical wallet", "tyler vertical"], 3⟩,
  ⟨"mansfield", ["mansfield"], 3⟩,
  ⟨"field-notes-cover", ["leather field notes cover", "field notes cover", "field notes"], 3⟩,
  ⟨"badge-vertical", ["badge vertical wallet", "badge vertical"], 3⟩,
  ⟨"apple-watch-band", ["apple watch leather band", "apple watch band", "watch band"], 3⟩,
  ⟨"glory-snap", ["glory snap"], 4⟩,
  ⟨"federal-badge-small", ["federal badge wallet small", "federal badge small"], 4⟩,
  ⟨"western-long", ["western long wallet", "western long"], 4⟩,
  ⟨"houstonian-long", ["houstonian long wallet", "houstonian long", "houstonian"], 4⟩,
  ⟨"badge-long", ["badge long wallet", "badge long"], 4⟩,
  ⟨"sugar-land-clutch", ["sugar land clutch", "sugar land"], 5⟩,
  ⟨"western-bifold", ["western bifold wallet", "western bifold"], 5⟩,
  ⟨"trinity-trifold", ["trinity trifold wallet", "trinity trifold", "trinity"], 5⟩,
  ⟨"rio-grande", ["rio grande"], 5⟩,
  ⟨"badge-bifold", ["badge bifold wallet", "badge bifold"], 5⟩,
  ⟨"badge-clutch", ["badge clutch wallet", "badge clutch"], 6⟩,
  ⟨"western-trifold", ["western trifold wallet", "western trifold"], 6⟩,
  ⟨"big-bend", ["big bend"], 6⟩,
  ⟨"badge-trifold", ["badge trifold wallet", "badge trifold"], 6⟩]

/-- Math.max(...keywords.map(k => k.length)), as computed inside the sort
comparator of getWalletType (every keyword list in the table is nonempty). -/
def maxKeyLen (m : WalletMapping) : Nat := (m.keywords.map String.length).foldl Nat.max 0

/-- Body of config.keywords.some(keyword => name.includes(keyword.toLowerCase()))
for an already-lowercased product name. -/
def kwMatches (name : String) (m : WalletMapping) : Bool :=
  m.keywords.any fun kw => jsIncludes name (lowerStr kw)

/-- The sortedMappings value computed on each getWalletType call: the catalog
sorted by longest registered keyword, descending, with insertion order kept
among ties (stable sort). -/
def sortedMappings : List WalletMapping :=
  WALLET_MAPPINGS.insertionSort fun a b => maxKeyLen b ≤ maxKeyLen a

/-- getWalletType of src/lib/walletMapping.js.  A missing (null/undefined) or
empty product name is falsy in JS and yields null; otherwise the first
mapping in sortedMappings with a case-insensitive keyword hit wins. -/
def getWalletType (productName : Option String) : Option String :=
  match productName with
  | none => none
  | some s =>
    if s = "" then none
    else (sortedMappings.find? (kwMatches (lowerStr s))).map WalletMapping.walletType

/-- getPointsForWalletType of src/lib/walletMapping.js:
WALLET_MAPPINGS[walletType]?.points || 0 (object keys are unique, so key
lookup is find? on walletType; every stored point value is positive, so the
JS || 0 only fires on a missing key). -/
def getPointsForWalletType (walletType : String) : Nat :=
  match WALLET_MAPPINGS.find? (fun m => decide (m.walletType = walletType)) with
  | some m => m.points
  | none => 0

/-- ACCESSORY_KEYWORDS of the revised walletMapping module bundled in
api/webhooks/shopify.js. -/
def ACCESSORY_KEYWORDS : List String := [
  "monogram", "special engraving", "monogram_font", "engraving_font",
  "engraving_location", "customer_note", "custom_logo", "add custom id",
  "badge type", "add custom badge cutout", "rfid cards", "extra"]

/-- isAccessory of the revised walletMapping module: falsy product names are
not accessories; otherwise any accessory keyword occurring in the lowercased
product name makes the item an accessory. -/
def isAccessory (productName : Option String) : Bool :=
  match productName with
  | none => false
  | some s =>
    if s = "" then false
    else ACCESSORY_KEYWORDS.any fun kw => jsIncludes (lowerStr s) kw

example : getWalletType (some "Badge Trifold Wallet") = some "badge-trifold" := by decide
example : getWalletType (some "Sugar Land Clutch") = some "sugar-land-clutch" := by decide
example : getPointsForWalletType "sugar-land-clutch" = 5 := by decide
example : isAccessory (some "Monogram Add-On") = true := by decide
example : getWalletType (some "Field Notes Badge Trifold Wallet") = some "field-notes-cover" := by decide

/-- LineItem statuses used by the fulfillment code; DB strings are
pending, claimed, in_progress, completed, void. -/
inductive Status
  | pending | claimed | inProgress | completed | voidItem
deriving DecidableEq, Repr

/-- One order_line_items row, restricted to the columns the verified code
reads or writes (audit-only pass-through columns are omitted). -/
structure LineItem where
  id : Nat
  orderNumber : String
  productName : String
  walletType : Option String := none
  points : Nat := 0
  status : Status := .pending
  claimedBy : Option String := none
  claimedByName : Option String := none
  claimedAt : Option String := none
  completedAt : Option String := none
  voidedAt : Option String := none
deriving DecidableEq, Repr

/-- One daily_points row. -/
structure DailyRec where
  id : Nat
  sewerId : String
  sewerName : Option String
  date : String
  points : Nat
  ordersCompleted : Nat
deriving DecidableEq, Repr

/-- One orders row, restricted to the columns the verified code reads or
writes (the shopify_metadata audit blob is omitted; of its fields only the
cancellation timestamp is interpreted, and that is read from the payload). -/
structure OrderRow where
  orderNumber : String
  shopifyOrderId : String
  status : String := "pending"
  ordererName : String
  points : Nat := 0
  walletType : Option String := none
  totalWallets : Nat := 0
  updatedAt : Option String := none
deriving DecidableEq, Repr

/-- The shared storage state: the three tables plus id counters for
database-generated row ids. -/
structure Db where
  orders : List OrderRow := []
  lineItems : List LineItem := []
  daily : List DailyRec := []
  nextItemId : Nat := 1
  nextDailyId : Nat := 1
deriving DecidableEq, Repr

/-- Storage errors surfaced to the verified code: PGRST116 from .single()
when the filtered result is not exactly one row, and the unique-constraint
conflict on insert (storage boundary, spec section 6). -/
inductive DbError
  | singleExpected
  | uniqueViolation
deriving DecidableEq, Repr

/-- Outcome shape of the claim/complete helpers: ok d is the JS object with
success true and data d, fail e is success false carrying the storage
error object. -/
inductive OpResult
  | ok (data : LineItem)
  | fail (error : DbError)
deriving DecidableEq, Repr

/-- Storage primitive for update(...).eq/in(...).select().single(): the update
is applied to every row matching pred; the returned row is the affected row
when exactly one row matched and none (PGRST116) otherwise. -/
def sbUpdateSingle (pred : α → Bool) (f : α → α) (rows : List α) : Option α × List α :=
  (match rows.filter pred with
   | [x] => some (f x)
   | _ => none,
   rows.map fun x => if pred x then f x else x)

/-- Storage primitive for select(...).eq(...).single() with the error
discarded: the row when exactly one row matches, none otherwise. -/
def sbSelectSingle (pred : α → Bool) (rows : List α) : Option α :=
  match rows.filter pred with
  | [x] => some x
  | _ => none

/-- claimWallet(lineItemId, sewerId, sewerName) of the realtime handlers:
conditional update to claimed scoped by id and current status pending,
stamping claimed_by, claimed_by_name and claimed_at (now is the
new Date().toISOString() value). -/
def claimWallet (now : String) (lineItemId : Nat) (sewerId sewerName : String)
    (db : Db) : OpResult × Db :=
  let r := sbUpdateSingle
    (fun i => decide (i.id = lineItemId ∧ i.status = Status.pending))
    (fun i => { i with
      status := Status.claimed, claimedBy := some sewerId,
      claimedByName := some sewerName, claimedAt := some now })
    db.lineItems
  match r.fst with
  | some data => (.ok data, { db with lineItems := r.snd })
  | none => (.fail .singleExpected, { db with lineItems := r.snd })

/-- updateDailyPoints(sewerId, sewerName, points) of the realtime handlers:
read today's record for the sewer with .single() (error discarded); if a
record came back, overwrite it through an id-scoped update with the values
read plus the credit (read-modify-write); otherwise insert a fresh record
seeded with the credited points and orders_completed 1. -/
def updateDailyPoints (today : String) (sewerId : String) (sewerName : Option String)
    (points : Nat) (db : Db) : Db :=
  match sbSelectSingle (fun r => decide (r.sewerId = sewerId ∧ r.date = today)) db.daily with
  | some existing =>
    { db with daily := db.daily.map fun r =>
        if decide (r.id = existing.id) then
          { r with
            points := existing.points + points,
            ordersCompleted := existing.ordersCompleted + 1 }
        else r }
  | none =>
    { db with
      daily := db.daily ++ [{
        id := db.nextDailyId, sewerId := sewerId,
        sewerName := sewerName, date := today,
        points := points, ordersCompleted := 1 }],
      nextDailyId := db.nextDailyId + 1 }

/-- The post-completion credit step of completeWallet: when the returned row
has a truthy claimed_by (non-null, nonempty) and data.points greater than 0,
call updateDailyPoints(claimed_by, claimed_by_name, points); otherwise do
nothing. -/
def creditStep (today : String) (data : LineItem) (db1 : Db) : Db :=
  match data.claimedBy with
  | some sid =>
    if sid = "" then db1
    else if 0 < data.points then
      updateDailyPoints today sid data.claimedByName data.points db1
    else db1
  | none => db1

/-- completeWallet(lineItemId) of the realtime handlers: conditional update to
completed scoped by id and current status in [claimed, in_progress], stamping
completed_at; on success the credit step runs once on the returned row. -/
def completeWallet (now today : String) (lineItemId : Nat) (db : Db) : OpResult × Db :=
  let r := sbUpdateSingle
    (fun i => decide (i.id = lineItemId ∧ (i.status = Status.claimed ∨ i.status = Status.inProgress)))
    (fun i => { i with status := Status.completed, completedAt := some now })
    db.lineItems
  match r.fst with
  | some data => (.ok data, creditStep today data { db with lineItems := r.snd })
  | none => (.fail .singleExpected, { db with lineItems := r.snd })

/-- Shopify customer object fields read by the handlers. -/
structure Customer where
  firstName : Option String
  lastName : Option String
deriving DecidableEq, Repr

/-- One entry of the payload line_items array, restricted to the fields the
verified code interprets (the rest is copied into audit blobs). -/
structure PayloadItem where
  title : String
  quantity : Nat
deriving DecidableEq, Repr

/-- An orders/create or orders/updated webhook payload, restricted to the
fields the verified code interprets; order_number and id arrive as numbers
and are used through toString, so they are modelled as strings. -/
structure OrderPayload where
  orderNumber : String
  shopifyOrderId : String
  customer : Option Customer
  billingAddressName : Option String
  cancelledAt : Option String := none
  lineItems : List PayloadItem := []
deriving DecidableEq, Repr

/-- Customer-name fallback chain of handleOrderCreate and handleOrderUpdate:
first+last of the customer object (missing parts as empty strings, trimmed),
else the billing-address name, else the string Unknown (JS || skips the
falsy empty string). -/
def customerNameOf (p : OrderPayload) : String :=
  match p.customer with
  | some c =>
    String.mk ((((c.firstName.getD "" ++ " " ++ c.lastName.getD "").data.dropWhile
      fun ch => decide (ch = ' ')).reverse.dropWhile fun ch => decide (ch = ' ')).reverse)
  | none =>
    match p.billingAddressName with
    | some n => if n = "" then "Unknown" else n
    | none => "Unknown"

/-- Storage primitive for insert([row]).select().single() on the orders table.
Modelled from the spec for the storage boundary (section 6, insert-or-conflict
semantics) and the identity uniqueness of section 3: the insert yields a
unique-constraint conflict when a row with the same source order id or the
same order number already exists, and appends the row otherwise. -/
def insertOrder (row : OrderRow) (db : Db) : Except DbError (OrderRow × Db) :=
  if db.orders.any fun o =>
      decide (o.shopifyOrderId = row.shopifyOrderId) || decide (o.orderNumber = row.orderNumber)
  then .error .uniqueViolation
  else .ok (row, { db with orders := db.orders ++ [row] })

/-- The order_line_items row built by handleOrderCreate for one payload item:
wallet_type null, points 0, status pending; the row id is database-generated. -/
def mkIngestedItem (orderNumber : String) (rowId : Nat) (it : PayloadItem) : LineItem :=
  { id := rowId, orderNumber := orderNumber, productName := it.title,
    walletType := none, points := 0, status := .pending }

/-- handleOrderCreate of api/webhooks/shopify.js: build the parent order row
(status pending, points 0, wallet_type null, total_wallets set to the raw
line_items count), insert it — throwing the storage error on failure — then
insert one pending line-item row per payload item in one batch. -/
def handleOrderCreate (p : OrderPayload) (db : Db) : Except DbError (OrderRow × Db) :=
  let orderData : OrderRow :=
    { orderNumber := p.orderNumber, shopifyOrderId := p.shopifyOrderId,
      status := "pending", ordererName := customerNameOf p, points := 0,
      walletType := none, totalWallets := p.lineItems.length }
  match insertOrder orderData db with
  | .error e => .error e
  | .ok (insertedOrder, db1) =>
    let rows := p.lineItems.enum.map fun pair =>
      mkIngestedItem insertedOrder.orderNumber (db1.nextItemId + pair.fst) pair.snd
    .ok (insertedOrder,
      { db1 with
        lineItems := db1.lineItems ++ rows,
        nextItemId := db1.nextItemId + rows.length })

/-- handleOrderUpdate of api/webhooks/shopify.js: refresh the orders row
matched by order_number (orderer_name and updated_at; the metadata blob is
audit-only); then, when the payload carries a truthy cancellation timestamp,
transition that order's line items whose status is pending to void, stamping
voided_at with the cancellation timestamp. -/
def handleOrderUpdate (nowIso : String) (p : OrderPayload) (db : Db) : Db :=
  let db1 : Db :=
    { db with
      orders := db.orders.map fun o =>
        if decide (o.orderNumber = p.orderNumber) then
          { o with ordererName := customerNameOf p, updatedAt := some nowIso }
        else o }
  match p.cancelledAt with
  | some ts =>
    if ts = "" then db1
    else
      { db1 with
        lineItems := db1.lineItems.map fun i =>
          if decide (i.orderNumber = p.orderNumber ∧ i.status = Status.pending) then
            { i with status := Status.voidItem, voidedAt := some ts }
          else i }
  | none => db1

/-- Result of one webhook request: the HTTP status sent, the storage state
afterwards, and the list of ingestion handlers that were invoked. -/
structure WebhookResponse where
  status : Nat
  db : Db
  invoked : List String
deriving DecidableEq, Repr

/-- The default-export handler of api/webhooks/shopify.js.  hmacB64 stands for
the HMAC-SHA256-then-base64 computation of the crypto module and parse for
JSON.parse (none models a parse exception); both are external collaborators
passed in as functions.  Non-POST methods get 405 before anything runs; an
unparseable body throws into the catch, which answers 200; a signature
mismatch answers 401 before any routing; authenticated requests are routed on
the topic header and answered 200 even when the routed handler throws. -/
def handler (hmacB64 : String → String → String) (parse : String → Option OrderPayload)
    (secret nowIso : String) (method : String) (rawBody : String)
    (hmacHeader : Option String) (topic : Option String) (db : Db) : WebhookResponse :=
  if method = "POST" then
    match parse rawBody with
    | none => { status := 200, db := db, invoked := [] }
    | some body =>
      if some (hmacB64 secret rawBody) = hmacHeader then
        if topic = some "orders/create" then
          match handleOrderCreate body db with
          | .ok (_, db1) => { status := 200, db := db1, invoked := ["orders/create"] }
          | .error _ => { status := 200, db := db, invoked := ["orders/create"] }
        else if topic = some "orders/updated" then
          { status := 200, db := handleOrderUpdate nowIso body db, invoked := ["orders/updated"] }
        else { status := 200, db := db, invoked := [] }
      else { status := 401, db := db, invoked := [] }
  else { status := 405, db := db, invoked := [] }

/-- Helper: a predicate that is false on every element filters to nil. -/
theorem filter_false_nil {α} {p : α → Bool} :
    ∀ {l : List α}, (∀ a ∈ l, p a = false) → l.filter p = []
  | [], _ => rfl
  | a :: t, h => by
    have ha := h a (List.mem_cons_self a t)
    simp [List.filter_cons, ha]
    exact fun b hb => h b (List.mem_cons_of_mem a hb)

/-- Helper: filtering to nil means the predicate is false on every element. -/
theorem filter_nil_false {α} {p : α → Bool} :
    ∀ {l : List α}, l.filter p = [] → ∀ a ∈ l, p a = false
  | [], _ => fun a ha => absurd ha (List.not_mem_nil a)
  | a :: t, h => by
    cases ha : p a with
    | true => simp [List.filter_cons, ha] at h
    | false =>
      intro b hb
      rcases List.mem_cons.mp hb with hb | hb
      · exact hb ▸ ha
      · exact filter_nil_false (by simpa [List.filter_cons, ha] using h) b hb

/-- Helper: a guarded rewrite map is the identity where the guard is false. -/
theorem map_if_noop {α} {p : α → Bool} {f : α → α} :
    ∀ {l : List α}, (∀ a ∈ l, p a = false) →
      (l.map fun a => if p a then f a else a) = l
  | [], _ => rfl
  | a :: t, h => by
    have ha := h a (List.mem_cons_self a t)
    simp [ha]
    exact map_if_noop fun b hb => h b (List.mem_cons_of_mem a hb)

/-- Helper: the conditional single-row update misses when no row satisfies the
filters, leaving the table unchanged and returning the PGRST116 signal. -/
theorem sbUpdateSingle_miss {α} {p : α → Bool} {f : α → α} {l : List α}
    (h : ∀ a ∈ l, p a = false) : sbUpdateSingle p f l = (none, l) := by
  simp [sbUpdateSingle, filter_false_nil h, map_if_noop h]

/-- Helper: the conditional single-row update hits when exactly the
distinguished row satisfies the filters, rewriting just that row. -/
theorem sbUpdateSingle_hit {α} {p : α → Bool} {f : α → α} (pre post : List α) (x : α)
    (hpre : ∀ a ∈ pre, p a = false) (hx : p x = true) (hpost : ∀ a ∈ post, p a = false) :
    sbUpdateSingle p f (pre ++ x :: post) = (some (f x), pre ++ f x :: post) := by
  simp [sbUpdateSingle, List.filter_append, List.filter_cons,
    filter_false_nil hpre, filter_false_nil hpost, hx,
    map_if_noop hpre, map_if_noop hpost]

/-- Helper: the single-row select misses when no row matches. -/
theorem sbSelectSingle_miss {α} {p : α → Bool} {l : List α}
    (h : ∀ a ∈ l, p a = false) : sbSelectSingle p l = none := by
  simp [sbSelectSingle, filter_false_nil h]

/-- Helper: the single-row select returns the unique matching row. -/
theorem sbSelectSingle_hit {α} {p : α → Bool} (pre post : List α) (x : α)
    (hpre : ∀ a ∈ pre, p a = false) (hx : p x = true) (hpost : ∀ a ∈ post, p a = false) :
    sbSelectSingle p (pre ++ x :: post) = some x := by
  simp [sbSelectSingle, List.filter_append, List.filter_cons,
    filter_false_nil hpre, filter_false_nil hpost, hx]

/-- Helper: a filter with a singleton result splits the list around the unique
matching element. -/
theorem filter_singleton_decomp {α} {p : α → Bool} :
    ∀ {l : List α} {x : α}, l.filter p = [x] →
      ∃ pre post, l = pre ++ x :: post ∧ (∀ a ∈ pre, p a = false) ∧
        (∀ a ∈ post, p a = false) ∧ p x = true
  | a :: t, x, h => by
    cases ha : p a with
    | true =>
      have hax : a = x ∧ ∀ b ∈ t, p b = false := by
        have := h
        simp [List.filter_cons, ha] at this
        exact ⟨this.1, this.2⟩
      exact ⟨[], t, by simp [hax.1], by simp,
        hax.2, hax.1 ▸ ha⟩
    | false =>
      have ht : t.filter p = [x] := by simpa [List.filter_cons, ha] using h
      rcases filter_singleton_decomp ht with ⟨pre, post, hsplit, hpre, hpost, hx⟩
      exact ⟨a :: pre, post, by simp [hsplit], by
        intro b hb
        rcases List.mem_cons.mp hb with hb | hb
        · exact hb ▸ ha
        · exact hpre b hb, hpost, hx⟩

/-- Daily-ledger key predicate for one staff member and date. -/
def dailyKey (sid d : String) (r : DailyRec) : Bool :=
  decide (r.sewerId = sid ∧ r.date = d)

/-- Total credited points recorded for one staff member on one date. -/
def dailyPointsOf (db : Db) (sid d : String) : Nat :=
  ((db.daily.filter (dailyKey sid d)).map DailyRec.points).sum

/-- Total completion count recorded for one staff member on one date. -/
def dailyCountOf (db : Db) (sid d : String) : Nat :=
  ((db.daily.filter (dailyKey sid d)).map DailyRec.ordersCompleted).sum

/-- Helper: crediting through updateDailyPoints raises the staff member's
daily points total by exactly the credited amount and the daily completion
count by exactly one, whether or not a record already exists, provided the
ledger has at most one record per (staff, date) key and unique row ids. -/
theorem updateDailyPoints_credit (today sid : String) (sname : Option String)
    (pts : Nat) (db : Db)
    (hkey : (db.daily.filter (dailyKey sid today)).length ≤ 1)
    (hids : db.daily.Pairwise fun a b => a.id ≠ b.id) :
    dailyPointsOf (updateDailyPoints today sid sname pts db) sid today
      = dailyPointsOf db sid today + pts ∧
    dailyCountOf (updateDailyPoints today sid sname pts db) sid today
      = dailyCountOf db sid today + 1 := by
  have hkeyfun : (fun r : DailyRec => decide (r.sewerId = sid ∧ r.date = today))
      = dailyKey sid today := rfl
  rcases hfe : db.daily.filter (dailyKey sid today) with _ | ⟨ex, rest⟩
  · -- no existing record: a fresh one is inserted, seeded with (pts, 1)
    have hnone : ∀ r ∈ db.daily, dailyKey sid today r = false :=
      filter_nil_false hfe
    have hsel : sbSelectSingle (dailyKey sid today) db.daily = none :=
      sbSelectSingle_miss hnone
    simp only [updateDailyPoints, hkeyfun, hsel]
    constructor
    · simp [dailyPointsOf, List.filter_append, hfe, List.filter_cons, dailyKey]
    · simp [dailyCountOf, List.filter_append, hfe, List.filter_cons, dailyKey]
  · -- an existing record: it is overwritten with the read values plus credit
    rcases rest with _ | ⟨y, rest⟩
    · rcases filter_singleton_decomp hfe with ⟨dpre, dpost, hsplit, hpre, hpost, hx⟩
      have hsel : sbSelectSingle (dailyKey sid today) db.daily = some ex := by
        rw [hsplit]; exact sbSelectSingle_hit dpre dpost ex hpre hx hpost
      simp only [updateDailyPoints, hkeyfun, hsel]
      have hids2 : db.daily.Pairwise fun a b => a.id ≠ b.id := hids
      rw [hsplit] at hids2
      have hnepre : ∀ a ∈ dpre, a.id ≠ ex.id := by
        intro a ha
        have := (List.pairwise_append.mp hids2).2.2 a ha ex (List.mem_cons_self ex dpost)
        exact this
      have hnepost : ∀ a ∈ dpost, a.id ≠ ex.id := by
        have hc := (List.pairwise_append.mp hids2).2.1
        intro a ha
        exact fun he => (List.pairwise_cons.mp hc).1 a ha he.symm
      have hprene : ∀ a ∈ dpre, (decide (a.id = ex.id)) = false := by
        intro a ha; simpa using hnepre a ha
      have hpostne : ∀ a ∈ dpost, (decide (a.id = ex.id)) = false := by
        intro a ha; simpa using hnepost a ha
      have hmap :
          (db.daily.map fun r =>
            if decide (r.id = ex.id) then
              { r with
                points := ex.points + pts,
                ordersCompleted := ex.ordersCompleted + 1 }
            else r)
          = dpre ++ ({ ex with
              points := ex.points + pts,
              ordersCompleted := ex.ordersCompleted + 1 } : DailyRec) :: dpost := by
        rw [hsplit, List.map_append, List.map_cons]
        rw [map_if_noop hprene, map_if_noop hpostne]
        simp
      have hkx : dailyKey sid today ({ ex with
          points := ex.points + pts,
          ordersCompleted := ex.ordersCompleted + 1 } : DailyRec) = true := by
        simp only [dailyKey, decide_eq_true_eq] at hx ⊢
        exact hx
      constructor
      · simp only [dailyPointsOf, updateDailyPoints, hmap]
        rw [hsplit, List.filter_append, List.filter_cons,
          filter_false_nil hpre, filter_false_nil hpost,
          List.filter_append, List.filter_cons,
          filter_false_nil hpre, filter_false_nil hpost, hx, hkx]
        simp
      · simp only [dailyCountOf, updateDailyPoints, hmap]
        rw [hsplit, List.filter_append, List.filter_cons,
          filter_false_nil hpre, filter_false_nil hpost,
          List.filter_append, List.filter_cons,
          filter_false_nil hpre, filter_false_nil hpost, hx, hkx]
        simp
    · rw [hfe] at hkey
      simp at hkey

/-- Claim C1 (amended): claimWallet applies the pending-to-claimed transition
(setting claimed_by, claimed_by_name, claimed_at) only when the item's current
status is pending, so at most one of any set of racing claimers succeeds; a
caller whose conditional update matches zero rows -- in particular any second
claimer after a successful claim -- receives the failure outcome (success
false) carrying the generic PGRST116 storage error, not a distinguished
AlreadyClaimed value. -/
theorem claimWallet_conditional_claim (now now2 sewerId sewerName sid2 sname2 : String)
    (lineItemId : Nat) (db : Db) (pre post : List LineItem) (i : LineItem)
    (hdb : db.lineItems = pre ++ i :: post)
    (hpre : ∀ j ∈ pre, j.id ≠ lineItemId) (hpost : ∀ j ∈ post, j.id ≠ lineItemId)
    (hid : i.id = lineItemId) :
    (i.status ≠ Status.pending →
      claimWallet now lineItemId sewerId sewerName db = (.fail .singleExpected, db)) ∧
    (i.status = Status.pending →
      claimWallet now lineItemId sewerId sewerName db
        = (.ok { i with
            status := Status.claimed, claimedBy := some sewerId,
            claimedByName := some sewerName, claimedAt := some now },
           { db with lineItems := pre ++ ({ i with
             status := Status.claimed, claimedBy := some sewerId,
             claimedByName := some sewerName, claimedAt := some now } : LineItem) :: post }) ∧
      claimWallet now2 lineItemId sid2 sname2
          (claimWallet now lineItemId sewerId sewerName db).snd
        = (.fail .singleExpected, (claimWallet now lineItemId sewerId sewerName db).snd)) := by
  have hprep : ∀ j ∈ pre,
      (decide (j.id = lineItemId ∧ j.status = Status.pending)) = false := by
    intro j hj; simp [hpre j hj]
  have hpostp : ∀ j ∈ post,
      (decide (j.id = lineItemId ∧ j.status = Status.pending)) = false := by
    intro j hj; simp [hpost j hj]
  constructor
  · intro hnp
    have hall : ∀ j ∈ db.lineItems,
        (decide (j.id = lineItemId ∧ j.status = Status.pending)) = false := by
      rw [hdb]; intro j hj
      rcases List.mem_append.mp hj with hj | hj
      · exact hprep j hj
      · rcases List.mem_cons.mp hj with hj | hj
        · subst hj; simp [hnp]
        · exact hpostp j hj
    simp only [claimWallet, sbUpdateSingle_miss hall]
  · intro hp
    have hip : (decide (i.id = lineItemId ∧ i.status = Status.pending)) = true := by
      simp [hid, hp]
    have h1 : claimWallet now lineItemId sewerId sewerName db
        = (.ok { i with
            status := Status.claimed, claimedBy := some sewerId,
            claimedByName := some sewerName, claimedAt := some now },
           { db with lineItems := pre ++ ({ i with
             status := Status.claimed, claimedBy := some sewerId,
             claimedByName := some sewerName, claimedAt := some now } : LineItem) :: post }) := by
      simp only [claimWallet, hdb, sbUpdateSingle_hit pre post i hprep hip hpostp]
    refine ⟨h1, ?_⟩
    rw [h1]
    have hall2 : ∀ j ∈ pre ++ ({ i with
        status := Status.claimed, claimedBy := some sewerId,
        claimedByName := some sewerName, claimedAt := some now } : LineItem) :: post,
        (decide (j.id = lineItemId ∧ j.status = Status.pending)) = false := by
      intro j hj
      rcases List.mem_append.mp hj with hj | hj
      · exact hprep j hj
      · rcases List.mem_cons.mp hj with hj | hj
        · subst hj; simp
        · exact hpostp j hj
    simp only [claimWallet, sbUpdateSingle_miss hall2]

/-- One pending two-point line item, the store for the claim witnesses. -/
def itemW1 : LineItem := { id := 1, orderNumber := "1001", productName := "Peyton", points := 2 }

/-- Store holding only itemW1. -/
def dbW1 : Db := { lineItems := [itemW1] }

/-- Claim C1 witness: on a store with one pending item, the claim succeeds and
stamps the claim fields, and an immediately following rival claim fails. -/
theorem claimWallet_conditional_claim_witness :
    claimWallet "t1" 1 "alice" "Alice" dbW1
      = (.ok { itemW1 with
          status := Status.claimed, claimedBy := some "alice",
          claimedByName := some "Alice", claimedAt := some "t1" },
         { dbW1 with
           lineItems := [{ itemW1 with
             status := Status.claimed, claimedBy := some "alice",
             claimedByName := some "Alice", claimedAt := some "t1" }] }) ∧
    claimWallet "t2" 1 "bob" "Bob" (claimWallet "t1" 1 "alice" "Alice" dbW1).snd
      = (.fail .singleExpected, (claimWallet "t1" 1 "alice" "Alice" dbW1).snd) := by
  have h := (claimWallet_conditional_claim "t1" "t2" "alice" "Alice" "bob" "Bob" 1 dbW1
    [] [] itemW1 rfl (by simp) (by simp) rfl).2 rfl
  exact ⟨h.1, h.2⟩

/-- Store with the single item already claimed by alice. -/
def dbClaimed : Db :=
  { lineItems := [{
      id := 1, orderNumber := "1001", productName := "Peyton", points := 2,
      status := Status.claimed, claimedBy := some "alice",
      claimedByName := some "Alice", claimedAt := some "t0" }] }

/-- Claim C1 counterexample: a claim that loses because the item is already
claimed returns exactly the same value -- success false with the generic
PGRST116 storage error -- as a claim on an item that does not exist at all
(id 99), so the caller is not told AlreadyClaimed as a typed outcome distinct
from a generic error; no AlreadyClaimed value occurs in the code. -/
theorem claimWallet_generic_error_on_loss :
    (claimWallet "t1" 1 "bob" "Bob" dbClaimed).fst = .fail .singleExpected ∧
    (claimWallet "t1" 99 "bob" "Bob" dbClaimed).fst = .fail .singleExpected ∧
    (claimWallet "t1" 1 "bob" "Bob" dbClaimed).fst
      = (claimWallet "t1" 99 "bob" "Bob" dbClaimed).fst := by
  exact ⟨by decide, by decide, by decide⟩

/-- Helper: updateDailyPoints only touches the daily table and its id counter. -/
theorem updateDailyPoints_lineItems (today sid : String) (sname : Option String)
    (pts : Nat) (db : Db) :
    (updateDailyPoints today sid sname pts db).lineItems = db.lineItems := by
  unfold updateDailyPoints
  cases sbSelectSingle (fun r => decide (r.sewerId = sid ∧ r.date = today)) db.daily <;> rfl

/-- Helper: the credit step never touches the line-item table. -/
theorem creditStep_lineItems (today : String) (data : LineItem) (db1 : Db) :
    (creditStep today data db1).lineItems = db1.lineItems := by
  unfold creditStep
  cases data.claimedBy with
  | none => rfl
  | some sid =>
    by_cases hs : sid = "" <;> by_cases hp : 0 < data.points <;>
      simp [hs, hp, updateDailyPoints_lineItems]

/-- Helper: the credit step credits the ledger when claimed_by is truthy and
points are positive. -/
theorem creditStep_credits (today sid : String) (data : LineItem) (db1 : Db)
    (hcb : data.claimedBy = some sid) (hs : sid ≠ "") (hp : 0 < data.points) :
    creditStep today data db1
      = updateDailyPoints today sid data.claimedByName data.points db1 := by
  unfold creditStep
  rw [hcb]
  simp [hs, hp]

/-- Helper: the credit step is a no-op when claimed_by is falsy or points are
zero. -/
theorem creditStep_noop (today : String) (data : LineItem) (db1 : Db)
    (h : data.claimedBy = none ∨ data.claimedBy = some "" ∨ data.points = 0) :
    creditStep today data db1 = db1 := by
  unfold creditStep
  rcases h with h | h | h
  · rw [h]
  · rw [h]; simp
  · cases hcb : data.claimedBy with
    | none => rfl
    | some sid => simp [h]

/-- Claim C4: completeWallet applies the transition to completed (stamping
completed_at) only when the item's current status is claimed or in_progress;
on success the daily Points Ledger is credited exactly once -- the staff
member's daily points rise by exactly the item's points and the daily
completion count by exactly one -- precisely when the item carries positive
points and a non-empty claimed_by identity, and the ledger is untouched
otherwise. -/
theorem completeWallet_transition_and_single_credit (now today : String) (lineItemId : Nat)
    (db : Db) (pre post : List LineItem) (i : LineItem)
    (hdb : db.lineItems = pre ++ i :: post)
    (hpre : ∀ j ∈ pre, j.id ≠ lineItemId) (hpost : ∀ j ∈ post, j.id ≠ lineItemId)
    (hid : i.id = lineItemId)
    (hkey : ∀ sid, (db.daily.filter (dailyKey sid today)).length ≤ 1)
    (hids : db.daily.Pairwise fun a b => a.id ≠ b.id) :
    (i.status ≠ Status.claimed ∧ i.status ≠ Status.inProgress →
      completeWallet now today lineItemId db = (.fail .singleExpected, db)) ∧
    (i.status = Status.claimed ∨ i.status = Status.inProgress →
      (completeWallet now today lineItemId db).fst
        = .ok { i with status := Status.completed, completedAt := some now } ∧
      (completeWallet now today lineItemId db).snd.lineItems
        = pre ++ ({ i with status := Status.completed, completedAt := some now } : LineItem) :: post ∧
      (∀ sid, i.claimedBy = some sid → sid ≠ "" → 0 < i.points →
        dailyPointsOf (completeWallet now today lineItemId db).snd sid today
          = dailyPointsOf db sid today + i.points ∧
        dailyCountOf (completeWallet now today lineItemId db).snd sid today
          = dailyCountOf db sid today + 1) ∧
      ((i.claimedBy = none ∨ i.claimedBy = some "" ∨ i.points = 0) →
        (completeWallet now today lineItemId db).snd.daily = db.daily)) := by
  have hprep : ∀ j ∈ pre, (decide (j.id = lineItemId ∧
      (j.status = Status.claimed ∨ j.status = Status.inProgress))) = false := by
    intro j hj; simp [hpre j hj]
  have hpostp : ∀ j ∈ post, (decide (j.id = lineItemId ∧
      (j.status = Status.claimed ∨ j.status = Status.inProgress))) = false := by
    intro j hj; simp [hpost j hj]
  constructor
  · rintro ⟨hn1, hn2⟩
    have hall : ∀ j ∈ db.lineItems, (decide (j.id = lineItemId ∧
        (j.status = Status.claimed ∨ j.status = Status.inProgress))) = false := by
      rw [hdb]; intro j hj
      rcases List.mem_append.mp hj with hj | hj
      · exact hprep j hj
      · rcases List.mem_cons.mp hj with hj | hj
        · subst hj; simp [hn1, hn2]
        · exact hpostp j hj
    simp only [completeWallet, sbUpdateSingle_miss hall]
  · intro hst
    have hip : (decide (i.id = lineItemId ∧
        (i.status = Status.claimed ∨ i.status = Status.inProgress))) = true := by
      simp only [decide_eq_true_eq]
      exact ⟨hid, hst⟩
    have h1 : sbUpdateSingle
        (fun j => decide (j.id = lineItemId ∧ (j.status = Status.claimed ∨ j.status = Status.inProgress)))
        (fun j => { j with status := Status.completed, completedAt := some now })
        db.lineItems
        = (some ({ i with status := Status.completed, completedAt := some now } : LineItem),
           pre ++ ({ i with status := Status.completed, completedAt := some now } : LineItem) :: post) := by
      rw [hdb]
      exact sbUpdateSingle_hit pre post i hprep hip hpostp
    refine ⟨?_, ?_, ?_, ?_⟩
    · simp only [completeWallet, h1]
    · simp only [completeWallet, h1]
      rw [creditStep_lineItems]
    · intro sid hcb hs hp
      have hcb2 : ({ i with status := Status.completed, completedAt := some now } : LineItem).claimedBy
          = some sid := hcb
      have hp2 : 0 < ({ i with status := Status.completed, completedAt := some now } : LineItem).points := hp
      have hcred := creditStep_credits today sid
        ({ i with status := Status.completed, completedAt := some now } : LineItem)
        { db with lineItems := pre ++ ({ i with status := Status.completed, completedAt := some now } : LineItem) :: post }
        hcb2 hs hp2
      have hc := updateDailyPoints_credit today sid
        ({ i with status := Status.completed, completedAt := some now } : LineItem).claimedByName
        ({ i with status := Status.completed, completedAt := some now } : LineItem).points
        { db with lineItems := pre ++ ({ i with status := Status.completed, completedAt := some now } : LineItem) :: post }
        (hkey sid) hids
      constructor
      · simp only [completeWallet, h1]
        rw [hcred]
        exact hc.1
      · simp only [completeWallet, h1]
        rw [hcred]
        exact hc.2
    · intro h
      have h2 : ({ i with status := Status.completed, completedAt := some now } : LineItem).claimedBy = none
          ∨ ({ i with status := Status.completed, completedAt := some now } : LineItem).claimedBy = some ""
          ∨ ({ i with status := Status.completed, completedAt := some now } : LineItem).points = 0 := h
      simp only [completeWallet, h1]
      rw [creditStep_noop today _ _ h2]

/-- Claim C4 witness: completing the claimed two-point item of dbClaimed marks
it completed and raises the claiming staff member's empty daily ledger to
exactly two points and one completion. -/
theorem completeWallet_transition_and_single_credit_witness :
    (completeWallet "t1" "d1" 1 dbClaimed).fst
      = .ok { id := 1, orderNumber := "1001", productName := "Peyton", points := 2,
              status := Status.completed, claimedBy := some "alice",
              claimedByName := some "Alice", claimedAt := some "t0",
              completedAt := some "t1" } ∧
    dailyPointsOf (completeWallet "t1" "d1" 1 dbClaimed).snd "alice" "d1" = 2 ∧
    dailyCountOf (completeWallet "t1" "d1" 1 dbClaimed).snd "alice" "d1" = 1 := by
  have h := (completeWallet_transition_and_single_credit "t1" "d1" 1 dbClaimed
    [] [] _ rfl (by simp) (by simp) rfl (fun sid => by simp [dbClaimed]) (by simp [dbClaimed])).2
    (Or.inl rfl)
  have hcred := h.2.2.1 "alice" rfl (by decide) (by decide)
  refine ⟨h.1, ?_, ?_⟩
  · rw [hcred.1]; decide
  · rw [hcred.2]; decide

/-- Claim C5 (amended): after a successful completion, a second completeWallet
call on the same item fails -- with the generic PGRST116 storage error rather
than a typed InvalidTransition -- and leaves the store, in particular the
daily Points Ledger, exactly as the first completion left it (no double
credit). -/
theorem completeWallet_twice_no_double_credit (now now2 today today2 : String)
    (lineItemId : Nat) (db : Db) (pre post : List LineItem) (i : LineItem)
    (hdb : db.lineItems = pre ++ i :: post)
    (hpre : ∀ j ∈ pre, j.id ≠ lineItemId) (hpost : ∀ j ∈ post, j.id ≠ lineItemId)
    (hid : i.id = lineItemId)
    (hst : i.status = Status.claimed ∨ i.status = Status.inProgress) :
    (completeWallet now today lineItemId db).fst
      = .ok { i with status := Status.completed, completedAt := some now } ∧
    completeWallet now2 today2 lineItemId (completeWallet now today lineItemId db).snd
      = (.fail .singleExpected, (completeWallet now today lineItemId db).snd) := by
  have hprep : ∀ j ∈ pre, (decide (j.id = lineItemId ∧
      (j.status = Status.claimed ∨ j.status = Status.inProgress))) = false := by
    intro j hj; simp [hpre j hj]
  have hpostp : ∀ j ∈ post, (decide (j.id = lineItemId ∧
      (j.status = Status.claimed ∨ j.status = Status.inProgress))) = false := by
    intro j hj; simp [hpost j hj]
  have hip : (decide (i.id = lineItemId ∧
      (i.status = Status.claimed ∨ i.status = Status.inProgress))) = true := by
    simp only [decide_eq_true_eq]
    exact ⟨hid, hst⟩
  have h1 : sbUpdateSingle
      (fun j => decide (j.id = lineItemId ∧ (j.status = Status.claimed ∨ j.status = Status.inProgress)))
      (fun j => { j with status := Status.completed, completedAt := some now })
      db.lineItems
      = (some ({ i with status := Status.completed, completedAt := some now } : LineItem),
         pre ++ ({ i with status := Status.completed, completedAt := some now } : LineItem) :: post) := by
    rw [hdb]
    exact sbUpdateSingle_hit pre post i hprep hip hpostp
  have hsnd : (completeWallet now today lineItemId db).snd.lineItems
      = pre ++ ({ i with status := Status.completed, completedAt := some now } : LineItem) :: post := by
    simp only [completeWallet, h1]
    rw [creditStep_lineItems]
  refine ⟨by simp only [completeWallet, h1], ?_⟩
  obtain ⟨db2, hdb2⟩ : ∃ d, (completeWallet now today lineItemId db).snd = d := ⟨_, rfl⟩
  rw [hdb2] at hsnd
  rw [hdb2]
  have hall : ∀ j ∈ db2.lineItems,
      (decide (j.id = lineItemId ∧
        (j.status = Status.claimed ∨ j.status = Status.inProgress))) = false := by
    rw [hsnd]; intro j hj
    rcases List.mem_append.mp hj with hj | hj
    · exact hprep j hj
    · rcases List.mem_cons.mp hj with hj | hj
      · subst hj; simp
      · exact hpostp j hj
  simp only [completeWallet, sbUpdateSingle_miss hall]

/-- Store whose single item is already completed and already credited. -/
def dbCompleted : Db :=
  { lineItems := [{
      id := 1, orderNumber := "1001", productName := "Peyton", points := 2,
      status := Status.completed, claimedBy := some "alice",
      claimedByName := some "Alice", claimedAt := some "t0",
      completedAt := some "t1" }],
    daily := [{ id := 1, sewerId := "alice", sewerName := some "Alice",
                date := "d1", points := 2, ordersCompleted := 1 }] }

/-- Claim C5 witness: completing the claimed item of dbClaimed succeeds, and
repeating the call fails while leaving the store of the first completion --
daily ledger included -- unchanged. -/
theorem completeWallet_twice_no_double_credit_witness :
    (completeWallet "t1" "d1" 1 dbClaimed).fst
      = .ok { id := 1, orderNumber := "1001", productName := "Peyton", points := 2,
              status := Status.completed, claimedBy := some "alice",
              claimedByName := some "Alice", claimedAt := some "t0",
              completedAt := some "t1" } ∧
    completeWallet "t2" "d1" 1 (completeWallet "t1" "d1" 1 dbClaimed).snd
      = (.fail .singleExpected, (completeWallet "t1" "d1" 1 dbClaimed).snd) := by
  exact completeWallet_twice_no_double_credit "t1" "t2" "d1" "d1" 1 dbClaimed
    [] [] _ rfl (by simp) (by simp) rfl (Or.inl rfl)

/-- Claim C5 counterexample: a second completion attempt on the completed item
of dbCompleted returns success false with the generic PGRST116 storage error
-- the very same value returned for an item that does not exist at all (id 9)
-- so the caller is not told InvalidTransition as a typed outcome; the store,
daily ledger included, is unchanged, so there is no double credit. -/
theorem completeWallet_generic_error_on_repeat :
    completeWallet "t2" "d1" 1 dbCompleted = (.fail .singleExpected, dbCompleted) ∧
    (completeWallet "t2" "d1" 9 dbCompleted).fst = .fail .singleExpected ∧
    (completeWallet "t2" "d1" 1 dbCompleted).fst
      = (completeWallet "t2" "d1" 9 dbCompleted).fst := by
  exact ⟨by decide, by decide, by decide⟩

/-- Claim C6: for a credited completion, updateDailyPoints increments the
existing (staff, today) record's points by the credited amount and its
orders_completed by exactly one in a single row update leaving every other
record untouched, and when no such record exists it creates one seeded with
the credited points and orders_completed equal to one; the count moves by one
per credited completion event, which completeWallet issues per line item. -/
theorem updateDailyPoints_upsert (today sid : String) (sname : Option String)
    (pts : Nat) (db : Db)
    (hids : db.daily.Pairwise fun a b => a.id ≠ b.id) :
    ((∀ r ∈ db.daily, ¬(r.sewerId = sid ∧ r.date = today)) →
      updateDailyPoints today sid sname pts db
        = { db with
            daily := db.daily ++ [{
              id := db.nextDailyId, sewerId := sid, sewerName := sname,
              date := today, points := pts, ordersCompleted := 1 }],
            nextDailyId := db.nextDailyId + 1 }) ∧
    (∀ dpre ex dpost, db.daily = dpre ++ ex :: dpost →
      ex.sewerId = sid → ex.date = today →
      (∀ r ∈ dpre, ¬(r.sewerId = sid ∧ r.date = today)) →
      (∀ r ∈ dpost, ¬(r.sewerId = sid ∧ r.date = today)) →
      updateDailyPoints today sid sname pts db
        = { db with
            daily := dpre ++ ({ ex with
              points := ex.points + pts,
              ordersCompleted := ex.ordersCompleted + 1 } : DailyRec) :: dpost }) := by
  constructor
  · intro h
    have hb : ∀ r ∈ db.daily, (decide (r.sewerId = sid ∧ r.date = today)) = false := by
      intro r hr; simpa using h r hr
    simp only [updateDailyPoints, sbSelectSingle_miss hb]
  · intro dpre ex dpost hsplit hsid hdate hpre hpost
    have hbpre : ∀ r ∈ dpre, (decide (r.sewerId = sid ∧ r.date = today)) = false := by
      intro r hr; simpa using hpre r hr
    have hbpost : ∀ r ∈ dpost, (decide (r.sewerId = sid ∧ r.date = today)) = false := by
      intro r hr; simpa using hpost r hr
    have hbx : (decide (ex.sewerId = sid ∧ ex.date = today)) = true := by
      simp [hsid, hdate]
    have hsel : sbSelectSingle (fun r => decide (r.sewerId = sid ∧ r.date = today)) db.daily
        = some ex := by
      rw [hsplit]; exact sbSelectSingle_hit dpre dpost ex hbpre hbx hbpost
    have hids2 := hids
    rw [hsplit] at hids2
    have hnepre : ∀ a ∈ dpre, (decide (a.id = ex.id)) = false := by
      intro a ha
      have := (List.pairwise_append.mp hids2).2.2 a ha ex (List.mem_cons_self ex dpost)
      simpa using this
    have hnepost : ∀ a ∈ dpost, (decide (a.id = ex.id)) = false := by
      have hc := (List.pairwise_cons.mp (List.pairwise_append.mp hids2).2.1).1
      intro a ha
      have : a.id ≠ ex.id := fun he => hc a ha he.symm
      simpa using this
    simp only [updateDailyPoints, hsel]
    rw [hsplit, List.map_append, List.map_cons,
      map_if_noop hnepre, map_if_noop hnepost]
    simp

/-- Store with one existing daily record for alice. -/
def dbDaily : Db :=
  { daily := [{ id := 1, sewerId := "alice", sewerName := some "Alice",
                date := "d1", points := 5, ordersCompleted := 2 }] }

/-- Claim C6 witness: crediting three points to alice on the day of her
existing (5 points, 2 completions) record rewrites just that record to
(8 points, 3 completions). -/
theorem updateDailyPoints_upsert_witness :
    updateDailyPoints "d1" "alice" (some "Alice") 3 dbDaily
      = { dbDaily with
          daily := [{ id := 1, sewerId := "alice", sewerName := some "Alice",
                      date := "d1", points := 8, ordersCompleted := 3 }] } := by
  exact (updateDailyPoints_upsert "d1" "alice" (some "Alice") 3 dbDaily
    (by simp [dbDaily])).2 [] _ [] rfl rfl rfl (by simp) (by simp)

/-- Claim C7: an order-update event carrying a truthy cancellation timestamp
transitions exactly the pending line items of that order to void with
voided_at set to the cancellation timestamp; items of other orders and items
in any non-pending status (claimed, in_progress, ...) are carried over
unchanged, the item count is preserved, and the daily ledger is untouched. -/
theorem orderUpdate_cancellation_voids_pending (nowIso ts : String) (p : OrderPayload)
    (db : Db) (hts : p.cancelledAt = some ts) (hne : ts ≠ "") :
    (handleOrderUpdate nowIso p db).lineItems.length = db.lineItems.length ∧
    (∀ i ∈ db.lineItems, i.orderNumber = p.orderNumber → i.status = Status.pending →
      ({ i with status := Status.voidItem, voidedAt := some ts } : LineItem)
        ∈ (handleOrderUpdate nowIso p db).lineItems) ∧
    (∀ i ∈ db.lineItems, ¬(i.orderNumber = p.orderNumber ∧ i.status = Status.pending) →
      i ∈ (handleOrderUpdate nowIso p db).lineItems) ∧
    (handleOrderUpdate nowIso p db).daily = db.daily := by
  have hred : (handleOrderUpdate nowIso p db).lineItems
      = db.lineItems.map fun i =>
          if decide (i.orderNumber = p.orderNumber ∧ i.status = Status.pending) then
            { i with status := Status.voidItem, voidedAt := some ts }
          else i := by
    simp only [handleOrderUpdate, hts]
    rw [if_neg hne]
  have hdaily : (handleOrderUpdate nowIso p db).daily = db.daily := by
    simp only [handleOrderUpdate, hts]
    rw [if_neg hne]
  refine ⟨by rw [hred]; exact List.length_map _ _, ?_, ?_, hdaily⟩
  · intro i hi hon hp
    rw [hred]
    have := List.mem_map_of_mem (fun i : LineItem =>
      if decide (i.orderNumber = p.orderNumber ∧ i.status = Status.pending) then
        { i with status := Status.voidItem, voidedAt := some ts }
      else i) hi
    simpa [hon, hp] using this
  · intro i hi hno
    rw [hred]
    have := List.mem_map_of_mem (fun i : LineItem =>
      if decide (i.orderNumber = p.orderNumber ∧ i.status = Status.pending) then
        { i with status := Status.voidItem, voidedAt := some ts }
      else i) hi
    simpa [hno] using this

/-- Store with two items of order 2001 (one pending, one claimed) and a
pending item of order 2002. -/
def dbCancel : Db :=
  { lineItems := [
      { id := 1, orderNumber := "2001", productName := "Peyton", points := 2 },
      { id := 2, orderNumber := "2001", productName := "Victory", points := 3,
        status := Status.claimed, claimedBy := some "alice" },
      { id := 3, orderNumber := "2002", productName := "Big Bend", points := 6 }] }

/-- Cancellation payload for order 2001. -/
def payloadCancel : OrderPayload :=
  { orderNumber := "2001", shopifyOrderId := "888", customer := none,
    billingAddressName := none, cancelledAt := some "c1" }

/-- Claim C7 witness: cancelling order 2001 over dbCancel voids its pending
item, keeps its claimed item and the pending item of order 2002 unchanged,
preserves the count and leaves the ledger empty. -/
theorem orderUpdate_cancellation_voids_pending_witness :
    (handleOrderUpdate "u1" payloadCancel dbCancel).lineItems.length = 3 ∧
    ({ id := 1, orderNumber := "2001", productName := "Peyton", points := 2,
       status := Status.voidItem, voidedAt := some "c1" } : LineItem)
      ∈ (handleOrderUpdate "u1" payloadCancel dbCancel).lineItems ∧
    ({ id := 2, orderNumber := "2001", productName := "Victory", points := 3,
       status := Status.claimed, claimedBy := some "alice" } : LineItem)
      ∈ (handleOrderUpdate "u1" payloadCancel dbCancel).lineItems ∧
    ({ id := 3, orderNumber := "2002", productName := "Big Bend", points := 6 } : LineItem)
      ∈ (handleOrderUpdate "u1" payloadCancel dbCancel).lineItems ∧
    (handleOrderUpdate "u1" payloadCancel dbCancel).daily = [] := by
  have h := orderUpdate_cancellation_voids_pending "u1" "c1" payloadCancel dbCancel rfl
    (by decide)
  refine ⟨h.1, ?_, ?_, ?_, h.2.2.2⟩
  · exact h.2.1
      { id := 1, orderNumber := "2001", productName := "Peyton", points := 2 }
      (by decide) rfl rfl
  · exact h.2.2.1
      { id := 2, orderNumber := "2001", productName := "Victory", points := 3,
        status := Status.claimed, claimedBy := some "alice" }
      (by decide) (by decide)
  · exact h.2.2.1
      { id := 3, orderNumber := "2002", productName := "Big Bend", points := 6 }
      (by decide) (by decide)

/-- Claim C2 (amended): when an order with the same source order id (or order
number) already has a row, handleOrderCreate raises the unique-constraint
conflict to its caller; the webhook handler catches the throw and answers
200 with the store unchanged -- the event is not detected-and-retried as an
update. -/
theorem orderCreate_conflict_thrown (p : OrderPayload) (db : Db)
    (h : ∃ o ∈ db.orders, o.shopifyOrderId = p.shopifyOrderId ∨ o.orderNumber = p.orderNumber) :
    handleOrderCreate p db = .error .uniqueViolation ∧
    ∀ (hm : String → String → String) (parse : String → Option OrderPayload)
      (secret nowIso raw : String) (hdr : Option String),
      parse raw = some p → some (hm secret raw) = hdr →
      handler hm parse secret nowIso "POST" raw hdr (some "orders/create") db
        = { status := 200, db := db, invoked := ["orders/create"] } := by
  have hany : (db.orders.any fun o =>
      decide (o.shopifyOrderId = p.shopifyOrderId) || decide (o.orderNumber = p.orderNumber))
      = true := by
    rcases h with ⟨o, ho, hcase⟩
    rw [List.any_eq_true]
    refine ⟨o, ho, ?_⟩
    rcases hcase with hc | hc <;> simp [hc]
  have hoc : handleOrderCreate p db = .error .uniqueViolation := by
    simp only [handleOrderCreate, insertOrder, hany]
    rfl
  refine ⟨hoc, ?_⟩
  intro hm parse secret nowIso raw hdr hparse hsig
  simp only [handler, hparse, hsig, hoc]
  simp

/-- The stored order that payloadC2 collides with. -/
def orderC2 : OrderRow :=
  { orderNumber := "1001", shopifyOrderId := "555", ordererName := "Old Name" }

/-- Store already holding order 1001 / source id 555. -/
def dbC2 : Db := { orders := [orderC2] }

/-- A create payload re-ingesting source order id 555 with a new customer. -/
def payloadC2 : OrderPayload :=
  { orderNumber := "1001", shopifyOrderId := "555",
    customer := some { firstName := some "New", lastName := some "Name" },
    billingAddressName := none }

/-- Claim C2 witness: re-ingesting source order 555 throws the conflict out of
handleOrderCreate and the surrounding handler answers 200 with the store
unchanged. -/
theorem orderCreate_conflict_thrown_witness :
    handleOrderCreate payloadC2 dbC2 = .error .uniqueViolation ∧
    handler (fun _ _ => "sig") (fun _ => some payloadC2) "sec" "u1" "POST" "raw"
        (some "sig") (some "orders/create") dbC2
      = { status := 200, db := dbC2, invoked := ["orders/create"] } := by
  have h := orderCreate_conflict_thrown payloadC2 dbC2
    ⟨orderC2, by simp [dbC2], Or.inl rfl⟩
  exact ⟨h.1, h.2 (fun _ _ => "sig") (fun _ => some payloadC2) "sec" "u1" "raw"
    (some "sig") rfl rfl⟩

/-- Claim C2 counterexample: the duplicate create event for source order 555
is answered by throwing the conflict (caught into a 200 with the store left
exactly as it was); it is not routed to the update path -- running the update
path on the very same event would have changed the stored order row, so the
observed outcome differs from retry-as-update. -/
theorem orderCreate_conflict_not_retried :
    handleOrderCreate payloadC2 dbC2 = .error .uniqueViolation ∧
    handler (fun _ _ => "sig") (fun _ => some payloadC2) "sec" "u1" "POST" "raw"
        (some "sig") (some "orders/create") dbC2
      = { status := 200, db := dbC2, invoked := ["orders/create"] } ∧
    handleOrderUpdate "u1" payloadC2 dbC2 ≠ dbC2 := by
  exact ⟨by rfl, by decide, by decide⟩

/-- Helper: the second component of any pair of an enumeration is an element
of the underlying list. -/
theorem snd_mem_of_mem_enumFrom {α} :
    ∀ {l : List α} {n : Nat} {pr : Nat × α}, pr ∈ l.enumFrom n → pr.snd ∈ l
  | a :: t, n, pr, h => by
    rcases List.mem_cons.mp h with h | h
    · subst h; exact List.mem_cons_self a t
    · exact List.mem_cons_of_mem a (snd_mem_of_mem_enumFrom h)

/-- Claim C8 (amended): on a fresh source order id, handleOrderCreate persists
the Order row with total_wallets equal to the raw line_items count (wallet and
accessory items alike), points 0 and wallet_type null -- no Classifier call
happens during ingestion -- and appends one pending line-item row per payload
item with points 0 and wallet_type null; the daily ledger is untouched.
Classification and aggregate derivation are deferred to the later
processOrderLineItems pass over item_type-tagged rows. -/
theorem orderCreate_raw_aggregates (p : OrderPayload) (db : Db)
    (h : ∀ o ∈ db.orders, o.shopifyOrderId ≠ p.shopifyOrderId ∧ o.orderNumber ≠ p.orderNumber) :
    ∃ db1, handleOrderCreate p db
      = .ok ({ orderNumber := p.orderNumber, shopifyOrderId := p.shopifyOrderId,
               status := "pending", ordererName := customerNameOf p, points := 0,
               walletType := none, totalWallets := p.lineItems.length }, db1) ∧
      db1.orders = db.orders
        ++ [{ orderNumber := p.orderNumber, shopifyOrderId := p.shopifyOrderId,
              status := "pending", ordererName := customerNameOf p, points := 0,
              walletType := none, totalWallets := p.lineItems.length }] ∧
      db1.lineItems.length = db.lineItems.length + p.lineItems.length ∧
      (∀ j ∈ db1.lineItems, j ∈ db.lineItems ∨
        (j.status = Status.pending ∧ j.points = 0 ∧ j.walletType = none ∧
         ∃ it ∈ p.lineItems, j.productName = it.title)) ∧
      db1.daily = db.daily := by
  have hany : (db.orders.any fun o =>
      decide (o.shopifyOrderId = p.shopifyOrderId) || decide (o.orderNumber = p.orderNumber))
      = false := by
    rw [List.any_eq_false]
    intro o ho
    simp [(h o ho).1, (h o ho).2]
  have hins : insertOrder
      { orderNumber := p.orderNumber, shopifyOrderId := p.shopifyOrderId,
        status := "pending", ordererName := customerNameOf p, points := 0,
        walletType := none, totalWallets := p.lineItems.length } db
      = .ok ({ orderNumber := p.orderNumber, shopifyOrderId := p.shopifyOrderId,
               status := "pending", ordererName := customerNameOf p, points := 0,
               walletType := none, totalWallets := p.lineItems.length },
             { db with
               orders := db.orders
                 ++ [{ orderNumber := p.orderNumber, shopifyOrderId := p.shopifyOrderId,
                       status := "pending", ordererName := customerNameOf p, points := 0,
                       walletType := none, totalWallets := p.lineItems.length }] }) := by
    simp only [insertOrder, hany]
    rfl
  refine ⟨{ db with
    orders := db.orders
      ++ [{ orderNumber := p.orderNumber, shopifyOrderId := p.shopifyOrderId,
            status := "pending", ordererName := customerNameOf p, points := 0,
            walletType := none, totalWallets := p.lineItems.length }],
    lineItems := db.lineItems ++ (p.lineItems.enum.map fun pair =>
      mkIngestedItem p.orderNumber (db.nextItemId + pair.fst) pair.snd),
    nextItemId := db.nextItemId + ((p.lineItems.enum.map fun pair =>
      mkIngestedItem p.orderNumber (db.nextItemId + pair.fst) pair.snd)).length }, ?_, ?_, ?_, ?_, ?_⟩
  · simp only [handleOrderCreate, hins]
  · rfl
  · simp [List.enum, List.enumFrom_length]
  · intro j hj
    rcases List.mem_append.mp hj with hj | hj
    · exact Or.inl hj
    · right
      rcases List.mem_map.mp hj with ⟨pr, hpr, hj2⟩
      subst hj2
      exact ⟨rfl, rfl, rfl, pr.snd, snd_mem_of_mem_enumFrom hpr, rfl⟩
  · rfl

/-- Order payload holding one wallet product and one accessory product. -/
def payloadMixed : OrderPayload :=
  { orderNumber := "1002", shopifyOrderId := "777", customer := none,
    billingAddressName := some "Al",
    lineItems := [{ title := "Rio Grande", quantity := 1 },
                  { title := "Monogram Add-On", quantity := 1 }] }

/-- Number of wallet-classified items of a payload, following the words of the
specification (claim side): items the Classifier resolves to a wallet type. -/
def classifiedWalletCount (p : OrderPayload) : Nat :=
  (p.lineItems.filter fun it => (getWalletType (some it.title)).isSome).length

/-- Sum of per-item classified points of a payload, following the words of
the specification (claim side). -/
def classifiedPointsSum (p : OrderPayload) : Nat :=
  (p.lineItems.map fun it =>
    getPointsForWalletType ((getWalletType (some it.title)).getD "")).sum

/-- Claim C8 witness: ingesting payloadMixed into an empty store persists the
order with the raw aggregates of the amended claim. -/
theorem orderCreate_raw_aggregates_witness :
    ∃ db1, handleOrderCreate payloadMixed {}
      = .ok ({ orderNumber := "1002", shopifyOrderId := "777",
               status := "pending", ordererName := customerNameOf payloadMixed, points := 0,
               walletType := none, totalWallets := payloadMixed.lineItems.length }, db1) ∧
      db1.orders = ({} : Db).orders
        ++ [{ orderNumber := "1002", shopifyOrderId := "777",
              status := "pending", ordererName := customerNameOf payloadMixed, points := 0,
              walletType := none, totalWallets := payloadMixed.lineItems.length }] ∧
      db1.lineItems.length = ({} : Db).lineItems.length + payloadMixed.lineItems.length ∧
      (∀ j ∈ db1.lineItems, j ∈ ({} : Db).lineItems ∨
        (j.status = Status.pending ∧ j.points = 0 ∧ j.walletType = none ∧
         ∃ it ∈ payloadMixed.lineItems, j.productName = it.title)) ∧
      db1.daily = ({} : Db).daily := by
  exact orderCreate_raw_aggregates payloadMixed {} (by simp)

/-- Claim C8 counterexample: for payloadMixed -- one wallet item (Rio Grande,
five points) and one accessory item (Monogram Add-On) -- the claim predicts a
persisted Order with totalWallets 1 (the wallet-classified count) and points 5
(the classified points sum), but handleOrderCreate persists totalWallets 2
(the raw item count, accessories included) and points 0, calling no
classifier at ingestion. -/
theorem orderCreate_no_classification_at_ingest :
    (match handleOrderCreate payloadMixed {} with
     | .ok pr => some (pr.fst.totalWallets, pr.fst.points, pr.fst.walletType)
     | .error _ => none) = some (2, 0, none) ∧
    classifiedWalletCount payloadMixed = 1 ∧
    classifiedPointsSum payloadMixed = 5 ∧
    getWalletType (some "Rio Grande") = some "rio-grande" ∧
    isAccessory (some "Monogram Add-On") = true ∧
    ¬((2 : Nat) = 1 ∧ (0 : Nat) = 5) := by
  exact ⟨by rfl, by decide, by decide, by decide, by decide, by decide⟩

/-- Claim C9: the webhook handler answers 405 (store untouched, nothing
invoked) on non-POST methods; answers 401 without invoking any ingestion
handler when the computed HMAC does not match the signature header of a
parseable POST body; and answers 200 on every parseable, authenticated POST,
whatever the topic and even when the routed order-create or order-update
processing throws. -/
theorem handler_response_contract (hmacB64 : String → String → String)
    (parse : String → Option OrderPayload) (secret nowIso method rawBody : String)
    (hdr topic : Option String) (db : Db) :
    (method ≠ "POST" →
      handler hmacB64 parse secret nowIso method rawBody hdr topic db
        = { status := 405, db := db, invoked := [] }) ∧
    (∀ body, method = "POST" → parse rawBody = some body →
      some (hmacB64 secret rawBody) ≠ hdr →
      handler hmacB64 parse secret nowIso method rawBody hdr topic db
        = { status := 401, db := db, invoked := [] }) ∧
    (∀ body, method = "POST" → parse rawBody = some body →
      some (hmacB64 secret rawBody) = hdr →
      (handler hmacB64 parse secret nowIso method rawBody hdr topic db).status = 200) := by
  refine ⟨?_, ?_, ?_⟩
  · intro hm
    simp only [handler, if_neg hm]
  · intro body hm hparse hsig
    subst hm
    simp only [handler, if_pos rfl, hparse, if_neg hsig]
    simp
  · intro body hm hparse hsig
    subst hm
    simp only [handler, if_pos rfl, hparse, if_pos hsig]
    simp only [if_true, reduceIte]
    by_cases h1 : topic = some "orders/create"
    · rw [if_pos h1]
      cases hoc : handleOrderCreate body db with
      | ok pr => cases pr; rfl
      | error e => rfl
    · rw [if_neg h1]
      by_cases h2 : topic = some "orders/updated"
      · rw [if_pos h2]
      · rw [if_neg h2]

/-- Claim C9 witness: the three clauses of the response contract evaluated on
concrete requests over dbCancel: a GET gets 405, a bad signature gets 401 with
nothing invoked, and an authenticated cancellation update gets 200. -/
theorem handler_response_contract_witness :
    handler (fun _ _ => "sig") (fun _ => some payloadCancel) "sec" "u1" "GET" "raw"
        (some "sig") (some "orders/updated") dbCancel
      = { status := 405, db := dbCancel, invoked := [] } ∧
    handler (fun _ _ => "sig") (fun _ => some payloadCancel) "sec" "u1" "POST" "raw"
        (some "bad") (some "orders/updated") dbCancel
      = { status := 401, db := dbCancel, invoked := [] } ∧
    (handler (fun _ _ => "sig") (fun _ => some payloadCancel) "sec" "u1" "POST" "raw"
        (some "sig") (some "orders/updated") dbCancel).status = 200 := by
  refine ⟨?_, ?_, ?_⟩
  · exact (handler_response_contract (fun _ _ => "sig") (fun _ => some payloadCancel)
      "sec" "u1" "GET" "raw" (some "sig") (some "orders/updated") dbCancel).1 (by decide)
  · exact (handler_response_contract (fun _ _ => "sig") (fun _ => some payloadCancel)
      "sec" "u1" "POST" "raw" (some "bad") (some "orders/updated") dbCancel).2.1
      payloadCancel rfl rfl (by decide)
  · exact (handler_response_contract (fun _ _ => "sig") (fun _ => some payloadCancel)
      "sec" "u1" "POST" "raw" (some "sig") (some "orders/updated") dbCancel).2.2
      payloadCancel rfl rfl rfl

/-- Helper: the first hit of a scan over a list sorted descending by a measure
maximizes that measure among all hits of the list. -/
theorem find?_first_max {α} (f : α → Nat) {p : α → Bool} :
    ∀ {l : List α} {x : α}, l.Pairwise (fun a b => f b ≤ f a) → l.find? p = some x →
      ∀ m ∈ l, p m = true → f m ≤ f x
  | [], _, _, hf => Option.noConfusion hf
  | a :: t, x, hpw, hf => by
    rcases List.pairwise_cons.mp hpw with ⟨ha, ht⟩
    cases hpa : p a with
    | true =>
      rw [List.find?_cons_of_pos t hpa] at hf
      injection hf with hax
      subst hax
      intro m hm hpm
      rcases List.mem_cons.mp hm with hm | hm
      · subst hm; exact le_refl _
      · exact ha m hm
    | false =>
      rw [List.find?_cons_of_neg t (by simp [hpa])] at hf
      intro m hm hpm
      rcases List.mem_cons.mp hm with hm | hm
      · subst hm; rw [hpa] at hpm; cases hpm
      · exact find?_first_max f ht hf m hm hpm

/-- Claim C3 (amended): resolution picks, among all types with a matching
keyword, one maximizing the longest keyword phrase registered for the type
(the sort key of the scan); in particular Badge Trifold Wallet resolves to
badge-trifold.  The registered maximum need not be the matched phrase, so the
matched-keyword-length reading fails (see the counterexample). -/
theorem getWalletType_longest_registered :
    getWalletType (some "Badge Trifold Wallet") = some "badge-trifold" ∧
    ∀ s t, getWalletType (some s) = some t →
      ∃ m ∈ WALLET_MAPPINGS, m.walletType = t ∧ kwMatches (lowerStr s) m = true ∧
        ∀ m2 ∈ WALLET_MAPPINGS, kwMatches (lowerStr s) m2 = true →
          maxKeyLen m2 ≤ maxKeyLen m := by
  have hsorted : sortedMappings.Pairwise fun a b => maxKeyLen b ≤ maxKeyLen a := by
    haveI : IsTotal WalletMapping fun a b => maxKeyLen b ≤ maxKeyLen a :=
      ⟨fun a b => Nat.le_total (maxKeyLen b) (maxKeyLen a)⟩
    haveI : IsTrans WalletMapping fun a b => maxKeyLen b ≤ maxKeyLen a :=
      ⟨fun _ _ _ hab hbc => Nat.le_trans hbc hab⟩
    exact List.sorted_insertionSort _ WALLET_MAPPINGS
  have hperm := List.perm_insertionSort
    (fun a b : WalletMapping => maxKeyLen b ≤ maxKeyLen a) WALLET_MAPPINGS
  constructor
  · decide
  · intro s t h
    by_cases hs : s = ""
    · simp only [getWalletType, if_pos hs] at h
      exact Option.noConfusion h
    · simp only [getWalletType, if_neg hs] at h
      rcases Option.map_eq_some'.mp h with ⟨m, hfind, hmt⟩
      have hmem : m ∈ sortedMappings := List.mem_of_find?_eq_some hfind
      have hmatch : kwMatches (lowerStr s) m = true := List.find?_some hfind
      refine ⟨m, hperm.mem_iff.mp hmem, hmt, hmatch, ?_⟩
      intro m2 hm2 hpm2
      exact find?_first_max maxKeyLen hsorted hfind m2 (hperm.mem_iff.mpr hm2) hpm2

/-- Claim C3 witness: the amended theorem applied to the product name Badge
Trifold Wallet, whose resolved type badge-trifold maximizes the longest
registered keyword among matching types. -/
theorem getWalletType_longest_registered_witness :
    ∃ m ∈ WALLET_MAPPINGS, m.walletType = "badge-trifold" ∧
      kwMatches (lowerStr "Badge Trifold Wallet") m = true ∧
      ∀ m2 ∈ WALLET_MAPPINGS, kwMatches (lowerStr "Badge Trifold Wallet") m2 = true →
        maxKeyLen m2 ≤ maxKeyLen m := by
  exact getWalletType_longest_registered.2 "Badge Trifold Wallet" "badge-trifold" (by decide)

/-- Length of the longest keyword phrase of a mapping actually occurring in a
given lowercased product name (claim side: the matched keyword phrase). -/
def bestMatchLen (name : String) (m : WalletMapping) : Nat :=
  ((m.keywords.filter fun kw => jsIncludes name (lowerStr kw)).map String.length).foldl Nat.max 0

/-- Claim C3 counterexample: Field Notes Badge Trifold Wallet contains keyword
phrases of two different types; the matched badge-trifold phrase (badge
trifold wallet, 20 characters) is longer than any matched field-notes-cover
phrase (field notes, 11 characters), yet resolution returns field-notes-cover
-- the scan orders types by their longest registered keyword (leather field
notes cover, 25 characters), not by the matched one, so the type with the
longer matched keyword does not win. -/
theorem getWalletType_shorter_matched_keyword_wins :
    getWalletType (some "Field Notes Badge Trifold Wallet") = some "field-notes-cover" ∧
    (WALLET_MAPPINGS.find? fun m => decide (m.walletType = "field-notes-cover")).map
        (bestMatchLen (lowerStr "Field Notes Badge Trifold Wallet")) = some 11 ∧
    (WALLET_MAPPINGS.find? fun m => decide (m.walletType = "badge-trifold")).map
        (bestMatchLen (lowerStr "Field Notes Badge Trifold Wallet")) = some 20 ∧
    (11 : Nat) < 20 := by
  exact ⟨by decide, by decide, by decide, by decide⟩

/-- Claim C10: getWalletType is total at its public boundary, answering null
for missing (null/undefined) and empty product names rather than throwing,
and getPointsForWalletType answers 0 for any wallet type absent from the
mapping table. -/
theorem classifier_null_total :
    getWalletType none = none ∧ getWalletType (some "") = none ∧
    ∀ t, (∀ m ∈ WALLET_MAPPINGS, m.walletType ≠ t) → getPointsForWalletType t = 0 := by
  refine ⟨rfl, by decide, ?_⟩
  intro t h
  have hfind : WALLET_MAPPINGS.find? (fun m => decide (m.walletType = t)) = none := by
    rw [List.find?_eq_none]
    intro m hm
    simp [h m hm]
  simp [getPointsForWalletType, hfind]

/-- Claim C10 witness: the null and empty names resolve to null, and the
unregistered type gizmo is worth 0 points. -/
theorem classifier_null_total_witness :
    getWalletType none = none ∧ getWalletType (some "") = none ∧
    getPointsForWalletType "gizmo" = 0 := by
  have h := classifier_null_total
  exact ⟨h.1, h.2.1, h.2.2 "gizmo" (by decide)⟩
